import Mathlib

/-!
Shallow embedding of the ambur-fusion-delights-web repository (a React
single-page restaurant site) and proofs about its cart reducer, scroll-driven
navigation logic, two-phase smooth-scroll animation and adaptive video
loading heuristic.

JavaScript numbers (scroll offsets, element positions, prices) are modelled
as rationals (ℚ); quantities and counters as naturals.
-/

/-! ## Cart data model

Mirrors the cart item shape used by `src/components/ui/cart-dropdown.tsx`
(id, name, price, image, veg flag, category, quantity). -/

structure CartItem where
  id : String
  name : String
  price : ℚ
  image : String
  isVeg : Bool
  category : String
  quantity : Nat
  deriving Repr, DecidableEq

/-- Modelled from the spec: the cart reducer lives in `@/contexts/CartContext`,
which is not present under src/ (only its consumers are). Spec §4.3: the
"add item" action "increments quantity if the item id already exists, else
inserts with quantity 1". -/
def addItemToList (items : List CartItem) (payload : CartItem) : List CartItem :=
  if ∃ x ∈ items, x.id = payload.id then
    items.map (fun x =>
      if x.id = payload.id then { x with quantity := x.quantity + 1 } else x)
  else
    items ++ [{ payload with quantity := 1 }]

/-- Modelled from the spec: `@/contexts/CartContext` is not present under
src/. Spec §4.3: "remove item" deletes the entry with the given id. -/
def removeItemFromList (items : List CartItem) (id : String) : List CartItem :=
  items.filter (fun x => decide (x.id ≠ id))

/-- Modelled from the spec: `@/contexts/CartContext` is not present under
src/. Spec §4.3: "update quantity (clamped ≥1; update to ≤0 is treated as
remove)". -/
def updateQuantityInList (items : List CartItem) (id : String) (q : Int) :
    List CartItem :=
  if q ≤ 0 then
    removeItemFromList items id
  else
    items.map (fun x =>
      if x.id = id then { x with quantity := q.toNat } else x)

/-- Quantity-change handler of `src/components/ui/cart-dropdown.tsx`
(`handleQuantityChange`, lines 64–70): a requested quantity ≤ 0 dispatches
`removeItem`, otherwise `updateQuantity`. -/
def handleQuantityChange (items : List CartItem) (itemId : String)
    (newQuantity : Int) : List CartItem :=
  if newQuantity ≤ 0 then
    removeItemFromList items itemId
  else
    updateQuantityInList items itemId newQuantity

/-- Modelled from the spec: derived item count, "recomputed from the item
list on every action" (spec §4.3), written reduce-style as the JS reducer
would. -/
def computeTotalItems (items : List CartItem) : Nat :=
  items.foldl (fun acc x => acc + x.quantity) 0

/-- Modelled from the spec: derived total price, "recomputed from the item
list on every action" (spec §4.3). -/
def computeTotalPrice (items : List CartItem) : ℚ :=
  items.foldl (fun acc x => acc + x.price * (x.quantity : ℚ)) 0

/-- Cart state as consumed by `cart-dropdown.tsx`: the item list, the two
derived totals and the open/closed flag of the cart panel. -/
structure CartState where
  items : List CartItem
  totalItems : Nat
  totalPrice : ℚ
  isOpen : Bool
  deriving Repr, DecidableEq

/-- Modelled from the spec: the action set of the cart reducer in
`@/contexts/CartContext` (spec §4.3): add item, update quantity, remove
item, clear cart, open/close/toggle cart panel. -/
inductive CartAction where
  | addItem (payload : CartItem)
  | updateQuantity (id : String) (q : Int)
  | removeItem (id : String)
  | clearCart
  | openCart
  | closeCart
  | toggleCart
  deriving Repr, DecidableEq

/-- Replace the item list and recompute both derived totals from it. -/
def withItems (s : CartState) (items : List CartItem) : CartState :=
  { s with
    items := items
    totalItems := computeTotalItems items
    totalPrice := computeTotalPrice items }

/-- Modelled from the spec: the cart reducer of `@/contexts/CartContext`
(spec §4.3). Every item-mutating action recomputes the derived totals from
the new item list; panel actions only touch the open flag. -/
def cartReducer (s : CartState) : CartAction → CartState
  | .addItem payload => withItems s (addItemToList s.items payload)
  | .updateQuantity id q => withItems s (updateQuantityInList s.items id q)
  | .removeItem id => withItems s (removeItemFromList s.items id)
  | .clearCart => withItems s []
  | .openCart => { s with isOpen := true }
  | .closeCart => { s with isOpen := false }
  | .toggleCart => { s with isOpen := !s.isOpen }

/-- The empty cart the provider starts from. -/
def initialCartState : CartState :=
  { items := [], totalItems := 0, totalPrice := 0, isOpen := false }

/-- Run a sequence of cart actions from a starting state. -/
def runCart (s : CartState) (actions : List CartAction) : CartState :=
  actions.foldl cartReducer s

/-! ## Cart lemmas -/

theorem foldl_add_eq_sum {α : Type} (f : α → Nat) (l : List α) (n : Nat) :
    l.foldl (fun acc x => acc + f x) n = n + (l.map f).sum := by
  induction l generalizing n with
  | nil => simp
  | cons a t ih => simp [List.foldl_cons, ih, Nat.add_assoc]

theorem foldl_add_eq_sum_rat {α : Type} (f : α → ℚ) (l : List α) (n : ℚ) :
    l.foldl (fun acc x => acc + f x) n = n + (l.map f).sum := by
  induction l generalizing n with
  | nil => simp
  | cons a t ih => simp [List.foldl_cons, ih, add_assoc]

theorem computeTotalItems_eq_sum (items : List CartItem) :
    computeTotalItems items = (items.map CartItem.quantity).sum := by
  simpa using foldl_add_eq_sum CartItem.quantity items 0

theorem computeTotalPrice_eq_sum (items : List CartItem) :
    computeTotalPrice items = (items.map (fun x => x.price * (x.quantity : ℚ))).sum := by
  simpa using foldl_add_eq_sum_rat (fun x => x.price * (x.quantity : ℚ)) items 0

/-- The derived-totals invariant: both totals agree with the sums over the
item list. -/
def cartInvariant (s : CartState) : Prop :=
  s.totalItems = (s.items.map CartItem.quantity).sum ∧
  s.totalPrice = (s.items.map (fun x => x.price * (x.quantity : ℚ))).sum

theorem cartReducer_preserves_invariant (s : CartState) (a : CartAction)
    (h : cartInvariant s) : cartInvariant (cartReducer s a) := by
  cases a <;>
    simp [cartReducer, withItems, cartInvariant, computeTotalItems_eq_sum,
      computeTotalPrice_eq_sum] <;>
    exact h

theorem runCart_preserves_invariant (actions : List CartAction) :
    ∀ s : CartState, cartInvariant s → cartInvariant (runCart s actions) := by
  induction actions with
  | nil => intro s h; simpa [runCart] using h
  | cons a t ih =>
      intro s h
      simpa [runCart] using ih _ (cartReducer_preserves_invariant s a h)

/-- C1: for every sequence of cart actions starting from the empty cart, the
derived field `totalItems` equals the sum of `quantity` over all items and
`totalPrice` equals the sum of `price × quantity` over all items; the totals
are never out of step with the item list. -/
theorem c1_cart_totals_derived (actions : List CartAction) :
    (runCart initialCartState actions).totalItems
        = ((runCart initialCartState actions).items.map CartItem.quantity).sum ∧
    (runCart initialCartState actions).totalPrice
        = ((runCart initialCartState actions).items.map
            (fun x => x.price * (x.quantity : ℚ))).sum := by
  have hinit : cartInvariant initialCartState := by
    simp [cartInvariant, initialCartState]
  exact runCart_preserves_invariant actions initialCartState hinit

/-- Sample cart item from spec §8: item A, price 100, quantity 1. -/
def itemA : CartItem :=
  { id := "item-a", name := "Item A", price := 100, image := "a.jpg",
    isVeg := false, category := "biryani", quantity := 1 }

/-- Sample cart item from spec §8: item B, price 50, quantity 3. -/
def itemB : CartItem :=
  { id := "item-b", name := "Item B", price := 50, image := "b.jpg",
    isVeg := true, category := "starters", quantity := 3 }

/-- C5: adding an item whose id already exists increments that entry's
quantity and inserts no duplicate (the id list is unchanged); adding a fresh
id appends the item with quantity 1; items with other ids survive
unchanged. -/
theorem c5_addItem_merges_duplicates (items : List CartItem)
    (payload : CartItem) :
    ((∃ x ∈ items, x.id = payload.id) →
        (addItemToList items payload).map CartItem.id = items.map CartItem.id)
  ∧ ((¬ ∃ x ∈ items, x.id = payload.id) →
        addItemToList items payload = items ++ [{ payload with quantity := 1 }])
  ∧ (∀ x ∈ items, x.id ≠ payload.id → x ∈ addItemToList items payload)
  ∧ (∀ x ∈ items, x.id = payload.id →
        { x with quantity := x.quantity + 1 } ∈ addItemToList items payload) := by
  refine ⟨?_, ?_, ?_, ?_⟩
  · intro hex
    rw [addItemToList, if_pos hex, List.map_map]
    apply List.map_congr_left
    intro x _
    by_cases hid : x.id = payload.id <;> simp [hid]
  · intro hex
    rw [addItemToList, if_neg hex]
  · intro x hx hid
    by_cases hex : ∃ y ∈ items, y.id = payload.id
    · rw [addItemToList, if_pos hex]
      have : (if x.id = payload.id
          then { x with quantity := x.quantity + 1 } else x) = x := by
        simp [hid]
      exact this ▸ List.mem_map_of_mem _ hx
    · rw [addItemToList, if_neg hex]
      exact List.mem_append_left _ hx
  · intro x hx hid
    have hex : ∃ y ∈ items, y.id = payload.id := ⟨x, hx, hid⟩
    rw [addItemToList, if_pos hex]
    have : (if x.id = payload.id
        then { x with quantity := x.quantity + 1 } else x)
        = { x with quantity := x.quantity + 1 } := by
      simp [hid]
    exact this ▸ List.mem_map_of_mem _ hx

/-- Closed instance of `c5_addItem_merges_duplicates`, exercising each
case: a cart already containing the added id, a cart without it, an
untouched other item and the incremented entry. -/
theorem c5_addItem_merges_duplicates_witness :
    ((∃ x ∈ [itemA, itemB], x.id = itemA.id) ∧
      (addItemToList [itemA, itemB] itemA).map CartItem.id
        = [itemA, itemB].map CartItem.id) ∧
    ((¬ ∃ x ∈ [itemA], x.id = itemB.id) ∧
      addItemToList [itemA] itemB = [itemA] ++ [{ itemB with quantity := 1 }]) ∧
    (itemB ∈ addItemToList [itemA, itemB] itemA) ∧
    ({ itemA with quantity := itemA.quantity + 1 }
        ∈ addItemToList [itemA, itemB] itemA) := by
  have hex : ∃ x ∈ [itemA, itemB], x.id = itemA.id := ⟨itemA, by simp⟩
  have hnex : ¬ ∃ x ∈ [itemA], x.id = itemB.id := by
    simp [itemA, itemB]
  exact ⟨⟨hex, (c5_addItem_merges_duplicates [itemA, itemB] itemA).1 hex⟩,
    ⟨hnex, (c5_addItem_merges_duplicates [itemA] itemB).2.1 hnex⟩,
    (c5_addItem_merges_duplicates [itemA, itemB] itemA).2.2.1 itemB (by simp)
      (by simp [itemA, itemB]),
    (c5_addItem_merges_duplicates [itemA, itemB] itemA).2.2.2 itemA (by simp) rfl⟩

/-- C6: requesting a quantity of 0 or below removes the item's id from the
cart entirely; requesting a quantity ≥ 1 sets that item's quantity to the
requested value. -/
theorem c6_update_quantity_removes_or_sets (items : List CartItem)
    (itemId : String) (q : Int) :
    (q ≤ 0 → ∀ x ∈ handleQuantityChange items itemId q, x.id ≠ itemId)
  ∧ (1 ≤ q → ∀ x ∈ handleQuantityChange items itemId q, x.id = itemId →
        (x.quantity : Int) = q) := by
  constructor
  · intro hq x hx
    rw [handleQuantityChange, if_pos hq] at hx
    have := List.of_mem_filter hx
    simpa using this
  · intro hq x hx hid
    have hq0 : ¬ q ≤ 0 := by omega
    rw [handleQuantityChange, if_neg hq0, updateQuantityInList,
      if_neg hq0] at hx
    obtain ⟨y, hy, hxy⟩ := List.mem_map.mp hx
    by_cases hyid : y.id = itemId
    · rw [if_pos hyid] at hxy
      rw [← hxy]
      simp [Int.toNat_of_nonneg (by omega : (0 : Int) ≤ q)]
    · rw [if_neg hyid] at hxy
      rw [← hxy] at hid
      exact absurd hid hyid

/-- Closed instance of `c6_update_quantity_removes_or_sets`: updating item A
to quantity 0 removes its id from the sample cart, and updating item B to 2
sets its quantity to 2. -/
theorem c6_update_quantity_removes_or_sets_witness :
    (((0 : Int) ≤ 0) ∧
      (∀ x ∈ handleQuantityChange [itemA, itemB] "item-a" 0, x.id ≠ "item-a")) ∧
    (((1 : Int) ≤ 2) ∧
      (∀ x ∈ handleQuantityChange [itemA, itemB] "item-b" 2, x.id = "item-b" →
        (x.quantity : Int) = 2)) :=
  ⟨⟨le_refl 0,
      (c6_update_quantity_removes_or_sets [itemA, itemB] "item-a" 0).1 (le_refl 0)⟩,
   ⟨by norm_num,
      (c6_update_quantity_removes_or_sets [itemA, itemB] "item-b" 2).2 (by norm_num)⟩⟩

/-! ## Scroll-driven navigation visibility

Two navbar variants compute a visibility flag from the live scroll offset:
`src/components/ui/navigation.tsx` (lines 147–174) and
`src/components/ModernNavigation.tsx` (lines 48–64). -/

/-- Visibility computation of `navigation.tsx` (`useScrollOptimized`
callback): when both the `#home` and `#menu` sections are found, the navbar
shows when `scrollY > heroBottom - 100` with
`heroBottom = hero.offsetTop + hero.height`; otherwise it falls back to
`scrollY > 50`. The hero section is passed as `some (offsetTop, height)` or
`none`. -/
def shouldShowNavbar (hero : Option (ℚ × ℚ)) (menuPresent : Bool)
    (scrollY : ℚ) : Bool :=
  match hero, menuPresent with
  | some (heroTop, heroHeight), true => decide (heroTop + heroHeight - 100 < scrollY)
  | _, _ => decide (50 < scrollY)

/-- Visibility computation of `ModernNavigation.tsx` (`useMotionValueEvent`
handler): `setIsVisible(true)` exactly when `latest > heroHeight - 100`,
else `setIsVisible(false)`. -/
def modernNavIsVisible (heroHeight latest : ℚ) : Bool :=
  decide (heroHeight - 100 < latest)

/-- C2 counterexample: the claim asserts the navbar is visible once the
offset is *at or past* `heroHeight - 100`; at the exact threshold
(heroHeight 800, offset 700) the code leaves the navbar hidden. -/
theorem c2_navbar_visibility_boundary_cex :
    ¬ (modernNavIsVisible 800 700 = true ↔ (800 : ℚ) - 100 ≤ 700) := by
  norm_num [modernNavIsVisible]

/-- C2 (amended): for every scroll offset the visibility flag is true iff
the offset is strictly greater than (hero height − 100 px buffer); at or
below the threshold the navbar is hidden, in both navbar variants. -/
theorem c2_navbar_visibility_strict (heroTop heroHeight y : ℚ) :
    (modernNavIsVisible heroHeight y = true ↔ heroHeight - 100 < y)
  ∧ (shouldShowNavbar (some (heroTop, heroHeight)) true y = true
        ↔ heroTop + heroHeight - 100 < y)
  ∧ (y ≤ heroHeight - 100 → modernNavIsVisible heroHeight y = false) := by
  refine ⟨by simp [modernNavIsVisible], by simp [shouldShowNavbar], ?_⟩
  intro hy
  simp [modernNavIsVisible]
  linarith

/-- Closed instance of `c2_navbar_visibility_strict`, matching the spec §8
example: viewport height 800 px, scroll offset 650 px. -/
theorem c2_navbar_visibility_strict_witness :
    ((650 : ℚ) ≤ 800 - 100) ∧ modernNavIsVisible 800 650 = false :=
  ⟨by norm_num, (c2_navbar_visibility_strict 0 800 650).2.2 (by norm_num)⟩

/-! ## Scroll-spy active-section tracking

`handleScrollSpy` in the AnimeNavbar variant (src/unnamed/part_002,
lines 42–100): layout information of each nav anchor is its
viewport-relative bounding-rect top and height, or absence from the DOM. -/

/-- Layout snapshot of one nav anchor section: whether
`document.querySelector` found it, and its `getBoundingClientRect` top and
height at the moment the handler runs. -/
structure SectionInfo where
  name : String
  present : Bool
  rectTop : ℚ
  rectHeight : ℚ
  deriving Repr, DecidableEq

/-- Span test of `handleScrollSpy`: the first present section whose
`[rect.top + scrollY, rect.top + scrollY + rect.height)` span contains
`scrollY + 80` (the navbar-height-adjusted offset). -/
def findSpanSection (scrollPosition : ℚ) :
    List SectionInfo → Option SectionInfo
  | [] => none
  | s :: rest =>
    if s.present then
      let elementTop := s.rectTop + scrollPosition
      let elementBottom := elementTop + s.rectHeight
      let adjusted := scrollPosition + 80
      if elementTop ≤ adjusted ∧ adjusted < elementBottom then some s
      else findSpanSection scrollPosition rest
    else findSpanSection scrollPosition rest

/-- Fallback of `handleScrollSpy`: starting from `sections[0]` with infinite
best distance, pick the present section minimising `|rect.top|` (strict
improvement only, so the first minimiser wins). -/
def closestSection (sections : List SectionInfo) : Option SectionInfo :=
  match sections with
  | [] => none
  | s0 :: _ =>
    some (sections.foldl
      (fun acc s =>
        if s.present then
          match acc.2 with
          | none => (s, some |s.rectTop|)
          | some best => if |s.rectTop| < best then (s, some |s.rectTop|) else acc
        else acc)
      (s0, (none : Option ℚ))).1

/-- The scroll-spy handler of src/unnamed/part_002 (lines 42–100): no update
while a click-initiated navigation is in flight; "Home" is forced whenever
the scroll offset is below 100 px; otherwise the span test runs, then the
closest-section fallback. Returns the name passed to `setActiveItem`, or
`none` when no update happens. -/
def handleScrollSpy (isNavigating : Bool) (scrollPosition : ℚ)
    (sections : List SectionInfo) : Option String :=
  if isNavigating then none
  else if scrollPosition < 100 then some "Home"
  else
    match findSpanSection scrollPosition sections with
    | some s => some s.name
    | none =>
      match closestSection sections with
      | some s => some s.name
      | none => none

/-- C3: for every scroll offset strictly below 100 px, the active-section
computation marks "Home" active, regardless of the section layout. -/
theorem c3_scrollspy_home_below_100 (scrollPosition : ℚ)
    (sections : List SectionInfo) (h : scrollPosition < 100) :
    handleScrollSpy false scrollPosition sections = some "Home" := by
  simp [handleScrollSpy, h]

/-- Closed instance of `c3_scrollspy_home_below_100` at offset 50 with a
layout whose span test would otherwise pick the menu section. -/
theorem c3_scrollspy_home_below_100_witness :
    ((50 : ℚ) < 100) ∧
    handleScrollSpy false 50 [⟨"Menu", true, -10, 2000⟩] = some "Home" :=
  ⟨by norm_num, c3_scrollspy_home_below_100 50 _ (by norm_num)⟩

/-! ## Two-phase smooth scroll (`src/hooks/useScrollOptimized.ts`)

`enhancedScrollToElement` (lines 99–201) is embedded as a trace of its
observable DOM actions: overlay creation/removal, `window.scrollTo` calls
and the completion callback. Pure style mutations on the overlay (blur and
background during the animation) change no state the claims mention and are
not traced. Animation frames are driven by an explicit list of
`requestAnimationFrame` timestamps; if the list ends early the animation is
simply still in flight. The setTimeout at the end of phase 2 removes the
overlay and then runs the callback, after all frames. -/

inductive ScrollEvent where
  | overlayCreated
  | scrollTo (pos : ℚ)
  | overlayRemoved
  | callbackInvoked
  deriving Repr, DecidableEq

/-- Phase-1 progress: `Math.min(elapsed / phase1Duration, 1)` with
`phase1Duration = 800`. -/
def phase1Progress (st1 t : ℚ) : ℚ := min ((t - st1) / 800) 1

/-- Phase-1 easing: `1 - Math.pow(1 - progress, 3)`. -/
def easeOutCubic (p : ℚ) : ℚ := 1 - (1 - p) ^ 3

/-- Phase-2 progress: `Math.min(elapsed / phase2Duration, 1)` with
`phase2Duration = 1200`. -/
def phase2Progress (st1 t : ℚ) : ℚ := min ((t - st1) / 1200) 1

/-- Phase-2 easing: `progress < 0.5 ? 2 * progress * progress :
1 - Math.pow(-2 * progress + 2, 2) / 2`. -/
def easeInOutQuad (p : ℚ) : ℚ :=
  if p < 1 / 2 then 2 * p * p else 1 - (-2 * p + 2) ^ 2 / 2

/-- `phase2Animation`: each frame resolves `startTime` (`if (!startTime)
startTime = currentTime`, with 0/undefined both falsy), scrolls to
`phase1Target + distance * 0.3 * easeProgress` where
`phase1Target = startPosition + distance * 0.7`, and when progress reaches 1
removes the overlay and fires the callback (via the 300 ms timeout). -/
def runPhase2 (startPosition distance : ℚ) (hasCallback : Bool) :
    ℚ → List ℚ → List ScrollEvent
  | _, [] => []
  | st, t :: ts =>
    ScrollEvent.scrollTo (startPosition + distance * (7 / 10)
        + distance * (3 / 10)
          * easeInOutQuad (phase2Progress (if st = 0 then t else st) t)) ::
      (if phase2Progress (if st = 0 then t else st) t < 1 then
        runPhase2 startPosition distance hasCallback (if st = 0 then t else st) ts
      else
        ScrollEvent.overlayRemoved ::
          (if hasCallback then [ScrollEvent.callbackInvoked] else []))

/-- `phase1Animation`: each frame scrolls to
`startPosition + distance * 0.7 * easeProgress`; when progress reaches 1 it
resets `startTime` to 0 and hands the remaining frames to phase 2. -/
def runPhase1 (startPosition distance : ℚ) (hasCallback : Bool) :
    ℚ → List ℚ → List ScrollEvent
  | _, [] => []
  | st, t :: ts =>
    ScrollEvent.scrollTo (startPosition + distance * (7 / 10)
        * easeOutCubic (phase1Progress (if st = 0 then t else st) t)) ::
      (if phase1Progress (if st = 0 then t else st) t < 1 then
        runPhase1 startPosition distance hasCallback (if st = 0 then t else st) ts
      else
        runPhase2 startPosition distance hasCallback 0 ts)

/-- `enhancedScrollToElement` (useScrollOptimized.ts lines 99–201). The
matched element is `some offsetTop` or `none`; the target is clamped with
`Math.max(0, elementTop - offset)`; if `|distance| < 10` the callback fires
at once with no overlay and no animation, otherwise the overlay is created
and phase 1 starts. -/
def enhancedScrollToElement (element : Option ℚ) (offset startPosition : ℚ)
    (hasCallback : Bool) (frames : List ℚ) : List ScrollEvent :=
  match element with
  | none => []
  | some elementTop =>
    if |max 0 (elementTop - offset) - startPosition| < 10 then
      if hasCallback then [ScrollEvent.callbackInvoked] else []
    else
      ScrollEvent.overlayCreated ::
        runPhase1 startPosition (max 0 (elementTop - offset) - startPosition)
          hasCallback 0 frames

/-- `scrollToElement` (useScrollOptimized.ts lines 74–89): the position
passed to `window.scrollTo`, `Math.max(0, elementTop - offset)`, or no call
when the selector matches nothing. -/
def scrollToElement (element : Option ℚ) (offset : ℚ) : Option ℚ :=
  element.map (fun elementTop => max 0 (elementTop - offset))

/-- `handleNavClick` of src/unnamed/part_002 (lines 128–139): scroll target
`Math.max(0, element.offsetTop - 80)` for a fixed 80 px navbar height. -/
def handleNavClickTarget (element : Option ℚ) : Option ℚ :=
  element.map (fun elementTop => max 0 (elementTop - 80))

/-- Navigation component state relevant to `handleNavigation`
(`src/components/ui/navigation.tsx`, lines 177–211). -/
structure NavComponentState where
  activeItem : String
  isMenuOpen : Bool
  isNavigating : Bool
  deriving Repr, DecidableEq

/-- Effect of a scroll trace on the navigation state: the only state change
the scroll path makes is `onScrollComplete`, which clears `isNavigating`
when the completion callback runs. -/
def applyScrollTrace (s : NavComponentState) (trace : List ScrollEvent) :
    NavComponentState :=
  trace.foldl
    (fun st e =>
      if e = ScrollEvent.callbackInvoked then { st with isNavigating := false }
      else st)
    s

/-- Mobile branch of `handleNavigation` (navigation.tsx lines 177–211):
set the clicked item active, close the menu, raise `isNavigating`, then run
`enhancedScrollToElement` whose callback alone clears the flag. -/
def handleNavigationMobile (s : NavComponentState) (itemId : String)
    (element : Option ℚ) (offset startPosition : ℚ) (frames : List ℚ) :
    NavComponentState :=
  applyScrollTrace
    { s with activeItem := itemId, isMenuOpen := false, isNavigating := true }
    (enhancedScrollToElement element offset startPosition true frames)

/-- C4: when the clamped target is within 10 px of the start position, the
trace is exactly one immediate callback: no overlay is created, no scroll
happens, no animation runs. -/
theorem c4_short_distance_completes_immediately
    (elementTop offset startPosition : ℚ) (frames : List ℚ)
    (h : |max 0 (elementTop - offset) - startPosition| < 10) :
    enhancedScrollToElement (some elementTop) offset startPosition true frames
      = [ScrollEvent.callbackInvoked] := by
  simp [enhancedScrollToElement, h]

/-- Closed instance of `c4_short_distance_completes_immediately`: element
top 100, offset 80, start 15 — distance 5. -/
theorem c4_short_distance_completes_immediately_witness :
    (|max 0 ((100 : ℚ) - 80) - 15| < 10) ∧
    enhancedScrollToElement (some 100) 80 15 true [0, 16, 32]
      = [ScrollEvent.callbackInvoked] := by
  have h : |max 0 ((100 : ℚ) - 80) - 15| < 10 := by
    rw [show max 0 ((100 : ℚ) - 80) = 20 by norm_num]
    norm_num
  exact ⟨h, c4_short_distance_completes_immediately 100 80 15 [0, 16, 32] h⟩

/-- C10: a selector that matches no element makes `enhancedScrollToElement`
return before doing anything — empty trace, hence no scroll, no overlay and
no callback — so the navigation component's `isNavigating` flag, raised
before the call and cleared only in the callback, stays raised. -/
theorem c10_missing_element_never_completes (offset startPosition : ℚ)
    (hasCallback : Bool) (frames : List ℚ) (s : NavComponentState)
    (itemId : String) :
    enhancedScrollToElement none offset startPosition hasCallback frames = []
  ∧ (handleNavigationMobile s itemId none offset startPosition frames).isNavigating
      = true := by
  exact ⟨rfl, rfl⟩

/-! ## Ordering of the completion callback (two-phase animation) -/

theorem cons_scroll_callback_last {x : ScrollEvent} {l : List ScrollEvent}
    (hx : ∃ q, x = ScrollEvent.scrollTo q)
    (h : ∃ pre, l = pre ++ [ScrollEvent.overlayRemoved, ScrollEvent.callbackInvoked]
        ∧ ∀ e ∈ pre, ∃ q, e = ScrollEvent.scrollTo q) :
    ∃ pre, x :: l = pre ++ [ScrollEvent.overlayRemoved, ScrollEvent.callbackInvoked]
        ∧ ∀ e ∈ pre, ∃ q, e = ScrollEvent.scrollTo q := by
  obtain ⟨pre, heq, hpre⟩ := h
  refine ⟨x :: pre, by rw [heq, List.cons_append], ?_⟩
  intro e he
  rcases List.mem_cons.mp he with he | he
  · exact he ▸ hx
  · exact hpre e he

theorem runPhase2_callback_last (startPosition distance : ℚ) :
    ∀ (frames : List ℚ) (st : ℚ),
      ScrollEvent.callbackInvoked ∈ runPhase2 startPosition distance true st frames →
      ∃ pre, runPhase2 startPosition distance true st frames
          = pre ++ [ScrollEvent.overlayRemoved, ScrollEvent.callbackInvoked]
        ∧ ∀ e ∈ pre, ∃ q, e = ScrollEvent.scrollTo q := by
  intro frames
  induction frames with
  | nil => intro st h; simp [runPhase2] at h
  | cons t ts ih =>
    intro st h
    rw [runPhase2] at h ⊢
    by_cases hp : phase2Progress (if st = 0 then t else st) t < 1
    · rw [if_pos hp] at h ⊢
      rcases List.mem_cons.mp h with hc | hc
      · exact absurd hc.symm (by simp)
      · exact cons_scroll_callback_last ⟨_, rfl⟩ (ih _ hc)
    · rw [if_neg hp] at h ⊢
      exact ⟨[ScrollEvent.scrollTo _], rfl, by simp⟩

theorem runPhase1_callback_last (startPosition distance : ℚ) :
    ∀ (frames : List ℚ) (st : ℚ),
      ScrollEvent.callbackInvoked ∈ runPhase1 startPosition distance true st frames →
      ∃ pre, runPhase1 startPosition distance true st frames
          = pre ++ [ScrollEvent.overlayRemoved, ScrollEvent.callbackInvoked]
        ∧ ∀ e ∈ pre, ∃ q, e = ScrollEvent.scrollTo q := by
  intro frames
  induction frames with
  | nil => intro st h; simp [runPhase1] at h
  | cons t ts ih =>
    intro st h
    rw [runPhase1] at h ⊢
    by_cases hp : phase1Progress (if st = 0 then t else st) t < 1
    · rw [if_pos hp] at h ⊢
      rcases List.mem_cons.mp h with hc | hc
      · exact absurd hc.symm (by simp)
      · exact cons_scroll_callback_last ⟨_, rfl⟩ (ih _ hc)
    · rw [if_neg hp] at h ⊢
      rcases List.mem_cons.mp h with hc | hc
      · exact absurd hc.symm (by simp)
      · exact cons_scroll_callback_last ⟨_, rfl⟩
          (runPhase2_callback_last startPosition distance ts 0 hc)

/-- C8: in the animated case (distance at least 10 px), whenever the
completion callback appears in the trace it is the final event, immediately
preceded by the overlay removal; everything before it is the overlay
creation and `window.scrollTo` calls, so the callback never fires before
both phases and the overlay fade-out have finished. -/
theorem c8_callback_fires_after_overlay_removed
    (elementTop offset startPosition : ℚ) (frames : List ℚ)
    (hd : 10 ≤ |max 0 (elementTop - offset) - startPosition|)
    (hc : ScrollEvent.callbackInvoked ∈
        enhancedScrollToElement (some elementTop) offset startPosition true frames) :
    ∃ pre, enhancedScrollToElement (some elementTop) offset startPosition true frames
        = pre ++ [ScrollEvent.overlayRemoved, ScrollEvent.callbackInvoked]
      ∧ ∀ e ∈ pre, e = ScrollEvent.overlayCreated ∨ ∃ q, e = ScrollEvent.scrollTo q := by
  have hlt : ¬ |max 0 (elementTop - offset) - startPosition| < 10 := not_lt.mpr hd
  rw [enhancedScrollToElement] at hc ⊢
  rw [if_neg hlt] at hc ⊢
  rcases List.mem_cons.mp hc with h | h
  · exact absurd h.symm (by simp)
  · obtain ⟨pre, heq, hpre⟩ := runPhase1_callback_last startPosition _ frames 0 h
    refine ⟨ScrollEvent.overlayCreated :: pre, ?_, ?_⟩
    · rw [heq, List.cons_append]
    · intro e he
      rcases List.mem_cons.mp he with he | he
      · exact Or.inl he
      · exact Or.inr (hpre e he)

/-- Closed instance of `c8_callback_fires_after_overlay_removed`: a 920 px
scroll with a frame schedule that completes both phases. -/
theorem c8_callback_fires_after_overlay_removed_witness :
    ((10 : ℚ) ≤ |max 0 ((1000 : ℚ) - 80) - 0|) ∧
    (ScrollEvent.callbackInvoked ∈
        enhancedScrollToElement (some 1000) 80 0 true [1, 801, 802, 2002]) ∧
    (∃ pre, enhancedScrollToElement (some 1000) 80 0 true [1, 801, 802, 2002]
        = pre ++ [ScrollEvent.overlayRemoved, ScrollEvent.callbackInvoked]
      ∧ ∀ e ∈ pre, e = ScrollEvent.overlayCreated ∨ ∃ q, e = ScrollEvent.scrollTo q) := by
  have hd : (10 : ℚ) ≤ |max 0 ((1000 : ℚ) - 80) - 0| := by
    norm_num [abs_of_nonneg]
  have hc : ScrollEvent.callbackInvoked ∈
      enhancedScrollToElement (some 1000) 80 0 true [1, 801, 802, 2002] := by
    norm_num [enhancedScrollToElement, runPhase1, runPhase2, phase1Progress,
      phase2Progress, easeOutCubic, easeInOutQuad, abs_of_nonneg]
  exact ⟨hd, hc, c8_callback_fires_after_overlay_removed 1000 80 0 _ hd hc⟩

/-! ## Nonnegativity of scroll positions -/

theorem easeOutCubic_bounds (p : ℚ) (h0 : 0 ≤ p) (h1 : p ≤ 1) :
    0 ≤ easeOutCubic p ∧ easeOutCubic p ≤ 1 := by
  have hu0 : (0 : ℚ) ≤ 1 - p := by linarith
  have hu1 : (1 : ℚ) - p ≤ 1 := by linarith
  constructor
  · have hle : (1 - p) ^ 3 ≤ 1 := pow_le_one₀ hu0 hu1
    simp only [easeOutCubic]
    linarith
  · have hge : (0 : ℚ) ≤ (1 - p) ^ 3 := pow_nonneg hu0 3
    simp only [easeOutCubic]
    linarith

theorem easeInOutQuad_bounds (p : ℚ) (h0 : 0 ≤ p) (h1 : p ≤ 1) :
    0 ≤ easeInOutQuad p ∧ easeInOutQuad p ≤ 1 := by
  unfold easeInOutQuad
  by_cases hp : p < 1 / 2
  · rw [if_pos hp]
    constructor <;> nlinarith
  · rw [if_neg hp]
    push_neg at hp
    constructor <;> nlinarith

theorem progress_bounds (st1 t dur : ℚ) (hel : st1 ≤ t) (hdur : 0 < dur) :
    0 ≤ min ((t - st1) / dur) 1 ∧ min ((t - st1) / dur) 1 ≤ 1 :=
  ⟨le_min (div_nonneg (by linarith) (le_of_lt hdur)) (by norm_num),
   min_le_right _ _⟩

theorem phase1_pos_nonneg (startPosition d e : ℚ) (hs : 0 ≤ startPosition)
    (ht : 0 ≤ startPosition + d) (he0 : 0 ≤ e) (he1 : e ≤ 1) :
    0 ≤ startPosition + d * (7 / 10) * e := by
  rcases le_or_lt 0 d with hd | hd
  · nlinarith [mul_nonneg hd he0]
  · nlinarith [mul_nonneg (neg_nonneg.mpr (le_of_lt hd)) (by linarith : (0 : ℚ) ≤ 1 - e)]

theorem phase2_pos_nonneg (startPosition d e : ℚ) (hs : 0 ≤ startPosition)
    (ht : 0 ≤ startPosition + d) (he0 : 0 ≤ e) (he1 : e ≤ 1) :
    0 ≤ startPosition + d * (7 / 10) + d * (3 / 10) * e := by
  rcases le_or_lt 0 d with hd | hd
  · nlinarith [mul_nonneg hd he0]
  · nlinarith [mul_nonneg (neg_nonneg.mpr (le_of_lt hd)) (by linarith : (0 : ℚ) ≤ 1 - e)]

theorem runPhase2_scrollTo_nonneg (startPosition d : ℚ) (cb : Bool)
    (hs : 0 ≤ startPosition) (ht : 0 ≤ startPosition + d) :
    ∀ (frames : List ℚ) (st : ℚ), frames.Sorted (· ≤ ·) →
      (st = 0 ∨ ∀ u ∈ frames, st ≤ u) →
      ∀ q, ScrollEvent.scrollTo q ∈ runPhase2 startPosition d cb st frames →
        0 ≤ q := by
  intro frames
  induction frames with
  | nil => intro st _ _ q hq; simp [runPhase2] at hq
  | cons t ts ih =>
    intro st hsort hst q hq
    have hst1 : (if st = 0 then t else st) ≤ t := by
      by_cases h0 : st = 0
      · simp [h0]
      · rw [if_neg h0]
        rcases hst with h | h
        · exact absurd h h0
        · exact h t (by simp)
    have hp := progress_bounds (if st = 0 then t else st) t 1200 hst1 (by norm_num)
    have he := easeInOutQuad_bounds _ hp.1 hp.2
    rw [runPhase2] at hq
    rcases List.mem_cons.mp hq with hq | hq
    · have := ScrollEvent.scrollTo.inj hq
      rw [this]
      exact phase2_pos_nonneg startPosition d _ hs ht he.1 he.2
    · by_cases hlt : phase2Progress (if st = 0 then t else st) t < 1
      · rw [if_pos hlt] at hq
        refine ih _ (List.sorted_cons.mp hsort).2 (Or.inr ?_) q hq
        intro u hu
        by_cases h0 : st = 0
        · rw [if_pos h0]
          exact (List.sorted_cons.mp hsort).1 u hu
        · rw [if_neg h0]
          rcases hst with h | h
          · exact absurd h h0
          · exact h u (List.mem_cons_of_mem _ hu)
      · rw [if_neg hlt] at hq
        cases cb <;> simp_all

theorem runPhase1_scrollTo_nonneg (startPosition d : ℚ) (cb : Bool)
    (hs : 0 ≤ startPosition) (ht : 0 ≤ startPosition + d) :
    ∀ (frames : List ℚ) (st : ℚ), frames.Sorted (· ≤ ·) →
      (st = 0 ∨ ∀ u ∈ frames, st ≤ u) →
      ∀ q, ScrollEvent.scrollTo q ∈ runPhase1 startPosition d cb st frames →
        0 ≤ q := by
  intro frames
  induction frames with
  | nil => intro st _ _ q hq; simp [runPhase1] at hq
  | cons t ts ih =>
    intro st hsort hst q hq
    have hst1 : (if st = 0 then t else st) ≤ t := by
      by_cases h0 : st = 0
      · simp [h0]
      · rw [if_neg h0]
        rcases hst with h | h
        · exact absurd h h0
        · exact h t (by simp)
    have hp := progress_bounds (if st = 0 then t else st) t 800 hst1 (by norm_num)
    have he := easeOutCubic_bounds _ hp.1 hp.2
    rw [runPhase1] at hq
    rcases List.mem_cons.mp hq with hq | hq
    · have := ScrollEvent.scrollTo.inj hq
      rw [this]
      exact phase1_pos_nonneg startPosition d _ hs ht he.1 he.2
    · by_cases hlt : phase1Progress (if st = 0 then t else st) t < 1
      · rw [if_pos hlt] at hq
        refine ih _ (List.sorted_cons.mp hsort).2 (Or.inr ?_) q hq
        intro u hu
        by_cases h0 : st = 0
        · rw [if_pos h0]
          exact (List.sorted_cons.mp hsort).1 u hu
        · rw [if_neg h0]
          rcases hst with h | h
          · exact absurd h h0
          · exact h u (List.mem_cons_of_mem _ hu)
      · rw [if_neg hlt] at hq
        exact runPhase2_scrollTo_nonneg startPosition d cb hs ht ts 0
          (List.sorted_cons.mp hsort).2 (Or.inl rfl) q hq

/-- C9: no scroll-to-section operation ever passes a negative position to
`window.scrollTo`: the targets of `scrollToElement`, `handleNavClick` and
`enhancedScrollToElement` are clamped with `Math.max(0, ...)`, and (given a
nonnegative start position and nondecreasing frame timestamps) every
intermediate animation position stays nonnegative as well. -/
theorem c9_scroll_targets_never_negative (element : Option ℚ)
    (offset startPosition : ℚ) (cb : Bool) (frames : List ℚ)
    (hs : 0 ≤ startPosition) (hsort : frames.Sorted (· ≤ ·)) :
    (∀ p, scrollToElement element offset = some p → 0 ≤ p)
  ∧ (∀ p, handleNavClickTarget element = some p → 0 ≤ p)
  ∧ (∀ q, ScrollEvent.scrollTo q ∈
        enhancedScrollToElement element offset startPosition cb frames → 0 ≤ q) := by
  refine ⟨?_, ?_, ?_⟩
  · intro p hp
    cases element with
    | none => simp [scrollToElement] at hp
    | some elementTop =>
      have hpe : p = max 0 (elementTop - offset) := by
        simpa [scrollToElement] using hp.symm
      rw [hpe]
      exact le_max_left 0 _
  · intro p hp
    cases element with
    | none => simp [handleNavClickTarget] at hp
    | some elementTop =>
      have hpe : p = max 0 (elementTop - 80) := by
        simpa [handleNavClickTarget] using hp.symm
      rw [hpe]
      exact le_max_left 0 _
  · intro q hq
    cases element with
    | none => simp [enhancedScrollToElement] at hq
    | some elementTop =>
      rw [enhancedScrollToElement] at hq
      by_cases hnear : |max 0 (elementTop - offset) - startPosition| < 10
      · rw [if_pos hnear] at hq
        cases cb <;> simp_all
      · rw [if_neg hnear] at hq
        rcases List.mem_cons.mp hq with h | h
        · exact absurd h (by simp)
        · have ht : 0 ≤ startPosition + (max 0 (elementTop - offset) - startPosition) := by
            have := le_max_left (0 : ℚ) (elementTop - offset)
            linarith
          exact runPhase1_scrollTo_nonneg startPosition _ cb hs ht frames 0
            hsort (Or.inl rfl) q h

/-- Closed instance of `c9_scroll_targets_never_negative` at the witness
schedule used for the animated case, plus the two clamped one-shot
targets. -/
theorem c9_scroll_targets_never_negative_witness :
    ((0 : ℚ) ≤ 0) ∧ ([(1 : ℚ), 801, 802, 2002].Sorted (· ≤ ·)) ∧
    (scrollToElement (some 1000) 80 = some 920 ∧ (0 : ℚ) ≤ 920) ∧
    (handleNavClickTarget (some 1000) = some 920) ∧
    (∀ q, ScrollEvent.scrollTo q ∈
        enhancedScrollToElement (some 1000) 80 0 true [1, 801, 802, 2002] → 0 ≤ q) := by
  have hsort : [(1 : ℚ), 801, 802, 2002].Sorted (· ≤ ·) := by
    norm_num [List.sorted_cons]
  have hst : scrollToElement (some 1000) 80 = some 920 := by
    simp [scrollToElement, max_def]
    norm_num
  have hnc : handleNavClickTarget (some 1000) = some 920 := by
    simp [handleNavClickTarget, max_def]
    norm_num
  exact ⟨le_refl 0, hsort,
    ⟨hst, (c9_scroll_targets_never_negative (some 1000) 80 0 true
        [1, 801, 802, 2002] (le_refl 0) hsort).1 920 hst⟩,
    hnc,
    (c9_scroll_targets_never_negative (some 1000) 80 0 true _ (le_refl 0) hsort).2.2⟩

/-! ## Adaptive video loading
(`src/components/OptimizedVideoBackground.tsx` and
`src/utils/videoOptimization.ts`) -/

inductive ConnectionSpeed where
  | slow
  | medium
  | fast
  deriving Repr, DecidableEq

inductive MobileStrategy where
  | video
  | image
  | auto
  deriving Repr, DecidableEq

inductive VideoQuality where
  | low
  | medium
  | high
  deriving Repr, DecidableEq

inductive PreloadMode where
  | none
  | metadata
  | auto
  deriving Repr, DecidableEq

/-- Connection classification of `checkConnection`
(OptimizedVideoBackground.tsx lines 62–75): slow for effective type
slow-2g/2g or downlink < 0.5, medium for 3g or downlink < 1.5, else fast. -/
def classifyConnection (effectiveType : String) (downlink : ℚ) : ConnectionSpeed :=
  if effectiveType = "slow-2g" ∨ effectiveType = "2g" ∨ downlink < 1 / 2 then
    ConnectionSpeed.slow
  else if effectiveType = "3g" ∨ downlink < 3 / 2 then
    ConnectionSpeed.medium
  else
    ConnectionSpeed.fast

/-- The `shouldLoadVideo` effect (OptimizedVideoBackground.tsx lines
120–149): reduced motion or not-in-view force false; on mobile the strategy
decides (image → false, video → true, auto → fast connections only); on
desktop anything but a slow connection loads. -/
def computeShouldLoadVideo (prefersReducedMotion isInView isMobile : Bool)
    (strategy : MobileStrategy) (speed : ConnectionSpeed) : Bool :=
  if prefersReducedMotion then false
  else if !isInView then false
  else if isMobile then
    match strategy with
    | .image => false
    | .video => true
    | .auto => decide (speed = ConnectionSpeed.fast)
  else decide (speed ≠ ConnectionSpeed.slow)

/-- Component state of `OptimizedVideoBackground` relevant to the fallback
decision. -/
structure VideoState where
  isLoaded : Bool
  hasError : Bool
  isInView : Bool
  shouldLoadVideo : Bool
  loadingProgress : ℚ
  connectionSpeed : ConnectionSpeed
  isMobile : Bool
  prefersReducedMotion : Bool
  deriving Repr, DecidableEq

/-- Initial state of the component (lazy mount, fast-connection default). -/
def initialVideoState : VideoState :=
  { isLoaded := false, hasError := false, isInView := false,
    shouldLoadVideo := false, loadingProgress := 0,
    connectionSpeed := ConnectionSpeed.fast, isMobile := false,
    prefersReducedMotion := false }

/-- Events the component reacts to: the video element's load/error/progress
callbacks, the intersection observer (which only ever sets in-view), and
the device/connection/reduced-motion detection effects. -/
inductive VideoEvent where
  | videoLoaded
  | videoError
  | loadProgress (p : ℚ)
  | enterViewport
  | setMobile (b : Bool)
  | setConnectionSpeed (speed : ConnectionSpeed)
  | setReducedMotion (b : Bool)
  deriving Repr, DecidableEq

/-- Raw state updates of the handlers: `handleVideoLoad`,
`handleVideoError` (sets `hasError` and clears `isLoaded`; nothing ever
clears `hasError` again), `handleLoadProgress`, the observer and the
detection effects. -/
def applyVideoEvent (s : VideoState) : VideoEvent → VideoState
  | .videoLoaded => { s with isLoaded := true, loadingProgress := 100 }
  | .videoError => { s with hasError := true, isLoaded := false }
  | .loadProgress p => { s with loadingProgress := p }
  | .enterViewport => { s with isInView := true }
  | .setMobile b => { s with isMobile := b }
  | .setConnectionSpeed speed => { s with connectionSpeed := speed }
  | .setReducedMotion b => { s with prefersReducedMotion := b }

/-- One event step: the handler runs, then the `shouldLoadVideo` effect
recomputes the flag from the new state. -/
def videoStep (strategy : MobileStrategy) (s : VideoState) (e : VideoEvent) :
    VideoState :=
  let s1 := applyVideoEvent s e
  { s1 with
    shouldLoadVideo := computeShouldLoadVideo s1.prefersReducedMotion
      s1.isInView s1.isMobile strategy s1.connectionSpeed }

/-- Render decision (OptimizedVideoBackground.tsx line 192): the static
poster fallback is rendered, with no video element attached, exactly when
`!shouldLoadVideo || hasError`. -/
def rendersFallback (s : VideoState) : Bool :=
  !s.shouldLoadVideo || s.hasError

/-- `getOptimalVideoConfig` (videoOptimization.ts lines 258–316). -/
def getOptimalVideoConfig (isMobile : Bool) (speed : ConnectionSpeed) :
    Bool × VideoQuality × PreloadMode × Nat :=
  if isMobile then
    match speed with
    | .slow => (false, VideoQuality.low, PreloadMode.none, 5)
    | .medium => (true, VideoQuality.medium, PreloadMode.metadata, 10)
    | .fast => (true, VideoQuality.high, PreloadMode.metadata, 15)
  else
    match speed with
    | .slow => (true, VideoQuality.low, PreloadMode.metadata, 10)
    | .medium => (true, VideoQuality.medium, PreloadMode.metadata, 20)
    | .fast => (true, VideoQuality.high, PreloadMode.auto, 30)

theorem videoStep_hasError_mono (strategy : MobileStrategy) (s : VideoState)
    (e : VideoEvent) (h : s.hasError = true) :
    (videoStep strategy s e).hasError = true := by
  cases e <;> simp [videoStep, applyVideoEvent, h]

theorem videoRun_hasError_mono (strategy : MobileStrategy)
    (events : List VideoEvent) :
    ∀ s : VideoState, s.hasError = true →
      (events.foldl (videoStep strategy) s).hasError = true := by
  induction events with
  | nil => intro s h; simpa using h
  | cons e es ih =>
    intro s h
    simpa using ih _ (videoStep_hasError_mono strategy s e h)

theorem computeShouldLoadVideo_mobile_slow_auto (pRM inView : Bool) :
    computeShouldLoadVideo pRM inView true MobileStrategy.auto
      ConnectionSpeed.slow = false := by
  cases pRM <;> cases inView <;> rfl

/-- C7: the static poster fallback is rendered whenever reduced motion is
preferred, or a video error has occurred, or the heuristic deems the
connection too slow (a mobile device on a slow connection under the default
auto strategy always gets `shouldLoadVideo = false` and hence the fallback,
and `getOptimalVideoConfig` answers `shouldLoadVideo = false` for mobile +
slow); and an error is terminal: once `hasError` is set, no later event
sequence ever clears it, so the fallback persists — no retry. -/
theorem c7_video_fallback_and_terminal_error :
    (∀ (strategy : MobileStrategy) (s : VideoState) (e : VideoEvent),
        (videoStep strategy s e).prefersReducedMotion = true →
        rendersFallback (videoStep strategy s e) = true)
  ∧ (∀ s : VideoState, s.hasError = true → rendersFallback s = true)
  ∧ (∀ (s : VideoState) (e : VideoEvent),
        (videoStep MobileStrategy.auto s e).isMobile = true →
        (videoStep MobileStrategy.auto s e).connectionSpeed = ConnectionSpeed.slow →
        rendersFallback (videoStep MobileStrategy.auto s e) = true)
  ∧ (getOptimalVideoConfig true ConnectionSpeed.slow).1 = false
  ∧ (∀ (strategy : MobileStrategy) (s : VideoState) (events : List VideoEvent),
        s.hasError = true →
        rendersFallback (events.foldl (videoStep strategy) s) = true) := by
  refine ⟨?_, ?_, ?_, rfl, ?_⟩
  · intro strategy s e h
    simp only [videoStep] at h ⊢
    simp [rendersFallback, computeShouldLoadVideo, h]
  · intro s h
    simp [rendersFallback, h]
  · intro s e hm hsp
    simp only [videoStep] at hm hsp ⊢
    simp [rendersFallback, hm, hsp, computeShouldLoadVideo_mobile_slow_auto]
  · intro strategy s events h
    simp [rendersFallback, videoRun_hasError_mono strategy events s h]

/-- Closed instance of `c7_video_fallback_and_terminal_error`: a
reduced-motion preference forces the fallback; an error state renders the
fallback; a mobile + slow step renders the fallback; and an error survives
a later successful-load event. -/
theorem c7_video_fallback_and_terminal_error_witness :
    ((videoStep MobileStrategy.auto initialVideoState
        (VideoEvent.setReducedMotion true)).prefersReducedMotion = true
      ∧ rendersFallback (videoStep MobileStrategy.auto initialVideoState
          (VideoEvent.setReducedMotion true)) = true) ∧
    ({ initialVideoState with hasError := true }.hasError = true
      ∧ rendersFallback { initialVideoState with hasError := true } = true) ∧
    ((videoStep MobileStrategy.auto
          { initialVideoState with isMobile := true }
          (VideoEvent.setConnectionSpeed ConnectionSpeed.slow)).isMobile = true
      ∧ (videoStep MobileStrategy.auto
          { initialVideoState with isMobile := true }
          (VideoEvent.setConnectionSpeed ConnectionSpeed.slow)).connectionSpeed
            = ConnectionSpeed.slow
      ∧ rendersFallback (videoStep MobileStrategy.auto
          { initialVideoState with isMobile := true }
          (VideoEvent.setConnectionSpeed ConnectionSpeed.slow)) = true) ∧
    (rendersFallback
        ([VideoEvent.videoLoaded].foldl (videoStep MobileStrategy.auto)
          { initialVideoState with hasError := true }) = true) := by
  have h1 : (videoStep MobileStrategy.auto initialVideoState
      (VideoEvent.setReducedMotion true)).prefersReducedMotion = true := rfl
  have h2 : ({ initialVideoState with hasError := true } : VideoState).hasError
      = true := rfl
  have h3m : (videoStep MobileStrategy.auto
      { initialVideoState with isMobile := true }
      (VideoEvent.setConnectionSpeed ConnectionSpeed.slow)).isMobile = true := rfl
  have h3s : (videoStep MobileStrategy.auto
      { initialVideoState with isMobile := true }
      (VideoEvent.setConnectionSpeed ConnectionSpeed.slow)).connectionSpeed
      = ConnectionSpeed.slow := rfl
  refine ⟨⟨h1, c7_video_fallback_and_terminal_error.1 MobileStrategy.auto
      initialVideoState (VideoEvent.setReducedMotion true) h1⟩,
    ⟨h2, c7_video_fallback_and_terminal_error.2.1 _ h2⟩,
    ⟨h3m, h3s, c7_video_fallback_and_terminal_error.2.2.1 _ _ h3m h3s⟩,
    c7_video_fallback_and_terminal_error.2.2.2.2 MobileStrategy.auto
      _ [VideoEvent.videoLoaded] h2⟩
